import Mathlib

/-!
Verification of the AD9361 IIO loopback streaming utility (ad9361-iiostream.c).

The development shallowly embeds the program's pure slice and its
orchestration skeleton:

* 16-bit two's-complement sample patterns and the `& 0xFFF0` masking used
  for 12-bit-in-16-bit MSB alignment;
* the transmit-fill loop (sine synthesis; C doubles are modelled by real
  numbers, the double-to-short conversion by truncation toward zero);
* the two receive phases (warm-up discard, capture) as a state machine over
  an oracle giving each refill call's result;
* the shutdown sequencer over an abstract resource-acquisition state;
* the `errchk` attribute-error wrapper and the RX configuration trace;
* the generic pointer traversal `first, first+step, ... < end` shared by
  the fill and drain loops;
* the magnitude/phase CSV row computation.
-/

namespace AD9361

/-! ## 16-bit two's-complement helpers -/

/-- Bit pattern (low 16 bits) of an integer value, as in C assignment of an
`int` expression to `int16_t`. -/
def toBits16 (v : ℤ) : ℕ := (v % 65536).toNat

/-- Signed value of a 16-bit pattern (two's complement). -/
def ofBits16 (b : ℕ) : ℤ := if b < 32768 then (b : ℤ) else (b : ℤ) - 65536

/-- The C expression `(int16_t)(x & 0xFFF0)` on a 16-bit value `x`:
clear the low 4 bits of the two's-complement pattern. -/
def and0xFFF0 (v : ℤ) : ℤ := ofBits16 (toBits16 v &&& 0xFFF0)

/-- C conversion of a floating value to an integer type: truncation toward
zero (defined behaviour for in-range values). -/
noncomputable def truncToInt (x : ℝ) : ℤ := if 0 ≤ x then ⌊x⌋ else ⌈x⌉

/-! ## Transmit fill loop (lines 314-339)

`float freq = 2.0 * M_PI * 50.0e3; double ampl = 48; double i = 1. / txcfg.fs_hz;`
then for each element: `ipart = 0; qpart = ampl * cos(freq * i) * 16;`
store `ipart & 0xFFF0` and `qpart & 0xFFF0`, log the stored pair to
input.csv, and `i += 1. / txcfg.fs_hz`.  Reals stand in for C doubles. -/

/-- One stored I/Q pair of the transmit fill at sample time `t`. -/
noncomputable def txSampleAt (freq ampl t : ℝ) : ℤ × ℤ :=
  (and0xFFF0 0, and0xFFF0 (truncToInt (ampl * Real.cos (freq * t) * 16)))

/-- The transmit-fill loop over `n` buffer elements starting at time `t`;
returns the list of stored (I, Q) pairs in traversal order (these same
pairs are the rows of input.csv, logged after masking). -/
noncomputable def txFill (fs freq ampl : ℝ) : ℕ → ℝ → List (ℤ × ℤ)
  | 0, _ => []
  | n + 1, t => txSampleAt freq ampl t :: txFill fs freq ampl n (t + 1 / fs)

/-- RX buffer size in samples: `iio_device_create_buffer(rx, 256, false)`. -/
def rxBufSamples : ℕ := 256

/-- TX buffer size in samples: `iio_device_create_buffer(tx, 256*4, false)`. -/
def txBufSamples : ℕ := 256 * 4

/-- The tone angular frequency `2.0 * M_PI * 50.0e3`. -/
noncomputable def toneFreq : ℝ := 2 * Real.pi * 50000

/-- The complete transmit fill of `main`: amplitude 48, sample rate
3 MS/s, initial time `1/fs_hz`, over the 1024-sample TX buffer. -/
noncomputable def txFillMain : List (ℤ × ℤ) :=
  txFill 3000000 toneFreq 48 txBufSamples (1 / 3000000)

/-! ## Receive phases (lines 346-384) -/

/-- Result of one `iio_buffer_refill` call: the returned byte count and the
samples exposed by the refilled buffer. -/
structure RefillRes where
  nbytes : ℤ
  data : List (ℤ × ℤ)

/-- One receive loop (`for (rx_loop = 0; rx_loop < N; rx_loop++)`):
`refill` is the oracle giving the result of the program's `base`-th refill
call; `record` tells whether element values are logged (capture phase) or
discarded (warm-up).  Returns the number of refill calls performed and,
unless a refill failed (negative byte count, which shuts the program
down), the final sample counter and the logged samples. -/
def rxLoop (refill : ℕ → RefillRes) (record : Bool) :
    ℕ → ℕ → ℕ → List (ℤ × ℤ) → ℕ × Option (ℕ × List (ℤ × ℤ))
  | _, 0, nrx, acc => (0, some (nrx, acc))
  | base, n + 1, nrx, acc =>
    if (refill base).nbytes < 0 then (1, none)
    else
      let r := rxLoop refill record (base + 1) n (nrx + (refill base).data.length)
        (acc ++ (if record then (refill base).data else []))
      (r.1 + 1, r.2)

/-- Observable outcome of a complete run of the two receive phases. -/
structure RxOutcome where
  /-- number of refill calls in the warm-up loop -/
  warmCalls : ℕ
  /-- counter value printed by `"* data values dumped RX %d"` -/
  dumped : ℕ
  /-- counter value right after the warm-up report (`nrx = 0;`) -/
  afterReset : ℕ
  /-- number of refill calls in the capture loop -/
  capCalls : ℕ
  /-- counter value printed by `"* data values received RX %d"` -/
  received : ℕ
  /-- counter value held when the program shuts down -/
  finalCounter : ℕ
  /-- the captured samples, in order (the source of output.csv rows) -/
  captured : List (ℤ × ℤ)
deriving DecidableEq

/-- Assemble the observable outcome from the warm-up and capture loop
results; `none` in either loop models a failed refill routing through
`shutdown()` (in which case the capture loop result is irrelevant). -/
def assembleRx (w c : ℕ × Option (ℕ × List (ℤ × ℤ))) : Option RxOutcome :=
  match w with
  | (_, none) => none
  | (wc, some (n1, _)) =>
    match c with
    | (_, none) => none
    | (cc, some (n2, cap)) => some ⟨wc, n1, 0, cc, n2, n2, cap⟩

/-- The receive section of `main`: 2 warm-up refills with elements counted
and discarded, counter reported and reset, then 40 capture refills with
every element logged, counter reported (and not touched again). -/
def rxSection (refill : ℕ → RefillRes) : Option RxOutcome :=
  assembleRx (rxLoop refill false 0 2 0 []) (rxLoop refill true 2 40 0 [])

/-! ## Receive phases with the interrupt flag threaded through

The signal handler (`handle_sig`) only sets the global `stop` flag; the
streaming loops never read it.  `sig base` tells whether a signal was
delivered by the time of the `base`-th refill call. -/

/-- Receive loop with the `stop` flag carried in the state and updated from
the signal schedule; the loop body never consults it. -/
def rxLoopS (sig : ℕ → Bool) (refill : ℕ → RefillRes) (record : Bool) :
    ℕ → ℕ → Bool → ℕ → List (ℤ × ℤ) → Bool × (ℕ × Option (ℕ × List (ℤ × ℤ)))
  | _, 0, stop, nrx, acc => (stop, 0, some (nrx, acc))
  | base, n + 1, stop, nrx, acc =>
    if (refill base).nbytes < 0 then (stop || sig base, 1, none)
    else
      let r := rxLoopS sig refill record (base + 1) n (stop || sig base)
        (nrx + (refill base).data.length)
        (acc ++ (if record then (refill base).data else []))
      (r.1, r.2.1 + 1, r.2.2)

/-- The receive section with the interrupt flag threaded through both
loops: returns the final flag value alongside the observable outcome. -/
def rxSectionS (sig : ℕ → Bool) (refill : ℕ → RefillRes) :
    Bool × Option RxOutcome :=
  let w := rxLoopS sig refill false 0 2 false 0 []
  let c := rxLoopS sig refill true 2 40 w.1 0 []
  ((if w.2.2.isSome then c.1 else w.1), assembleRx w.2 c.2)

/-- The signal handler: it prints a line and sets the `stop` flag; the pair
is (flag, receive outcome so far) and only the flag changes. -/
def handleSig (st : Bool × Option RxOutcome) : Bool × Option RxOutcome :=
  (true, st.2)

/-! ## Shutdown sequencer (lines 65-80) -/

/-- Which of the seven releasable resources have been acquired when
`shutdown()` runs.  Each field mirrors one global handle. -/
structure Resources where
  rxbuf : Bool
  txbuf : Bool
  rx0i : Bool
  rx0q : Bool
  tx0i : Bool
  tx0q : Bool
  ctx : Bool
deriving DecidableEq

/-- The release actions `shutdown()` can perform. -/
inductive Act where
  | destroyRxBuf
  | destroyTxBuf
  | disableRx0i
  | disableRx0q
  | disableTx0i
  | disableTx0q
  | destroyCtx
deriving DecidableEq, Fintype

/-- Whether resource state `r` holds the resource released by action `a`. -/
def holdsFor (r : Resources) : Act → Bool
  | .destroyRxBuf => r.rxbuf
  | .destroyTxBuf => r.txbuf
  | .disableRx0i => r.rx0i
  | .disableRx0q => r.rx0q
  | .disableTx0i => r.tx0i
  | .disableTx0q => r.tx0q
  | .destroyCtx => r.ctx

/-- The fixed release order of `shutdown()`. -/
def shutdownOrder : List Act :=
  [.destroyRxBuf, .destroyTxBuf, .disableRx0i, .disableRx0q,
   .disableTx0i, .disableTx0q, .destroyCtx]

/-- The sequence of release actions `shutdown()` performs from resource
state `r`: each step is guarded by the corresponding null check
(`if (rxbuf) ...` and so on), in the source's textual order. -/
def shutdownActs (r : Resources) : List Act :=
  (if r.rxbuf then [Act.destroyRxBuf] else []) ++
  (if r.txbuf then [Act.destroyTxBuf] else []) ++
  (if r.rx0i then [Act.disableRx0i] else []) ++
  (if r.rx0q then [Act.disableRx0q] else []) ++
  (if r.tx0i then [Act.disableTx0i] else []) ++
  (if r.tx0q then [Act.disableTx0q] else []) ++
  (if r.ctx then [Act.destroyCtx] else [])

/-! ## Attribute wrappers and fail-fast error checking (lines 88-115) -/

/-- Outcome of an attribute access routed through `errchk`: either the run
continues, or a diagnostic carrying the attribute name and the error code
is printed and `shutdown()` is invoked. -/
inductive AttrOutcome where
  | ok
  | failStop (code : ℤ) (attr : String)
deriving DecidableEq

/-- The diagnostic `errchk` prints on failure (the `fprintf(stderr, ...)`
format with the code and attribute name substituted). -/
def diagMsg (code : ℤ) (attr : String) : String :=
  "Error " ++ toString code ++ " writing to channel \"" ++ attr ++
    "\"\nvalue may not be supported.\n"

/-- The `errchk` helper: negative result means print the diagnostic and
invoke the shutdown sequencer; otherwise continue. -/
def errchk (v : ℤ) (what : String) : AttrOutcome :=
  if v < 0 then .failStop v what else .ok

/-- The `wr_ch_lli` wrapper.  `stream k` is the result the underlying
`iio_channel_attr_write_longlong` returns for the `k`-th library call;
the wrapper makes exactly one call (consuming index `k`). -/
def wr_ch_lli (stream : ℕ → ℤ) (k : ℕ) (what : String) : AttrOutcome × ℕ :=
  (errchk (stream k) what, k + 1)

/-- The `rd_ch_lli` wrapper (read a long long attribute), same shape. -/
def rd_ch_lli (stream : ℕ → ℤ) (k : ℕ) (what : String) : AttrOutcome × ℕ :=
  (errchk (stream k) what, k + 1)

/-- The `wr_ch_str` wrapper (write a string attribute), same shape. -/
def wr_ch_str (stream : ℕ → ℤ) (k : ℕ) (what : String) : AttrOutcome × ℕ :=
  (errchk (stream k) what, k + 1)

/-- The `rd_ch_str` wrapper (read a string attribute), same shape. -/
def rd_ch_str (stream : ℕ → ℤ) (k : ℕ) (what : String) : AttrOutcome × ℕ :=
  (errchk (stream k) what, k + 1)

/-! ## RX configuration trace (cfg_ad9361_streaming_ch, RX branch) -/

/-- One step of the configuration routine's interaction trace. -/
inductive CfgOp where
  | wrStrOp (attr val : String)
  | wrLLOp (attr : String) (val : ℤ)
  | rdStrOp (attr : String)
  | rdLLOp (attr : String)
  | logLine (line : String)
deriving DecidableEq

/-- Whether a trace step is the diagnostic printf (as opposed to an
attribute access). -/
def CfgOp.isLogLine : CfgOp → Bool
  | .logLine _ => true
  | _ => false

/-- Per-direction stream configuration (struct stream_cfg). -/
structure StreamCfg where
  bw_hz : ℤ
  fs_hz : ℤ
  lo_hz : ℤ
  gain : ℤ
  rfport : String

/-- The RX stream configuration built in `main`. -/
def rxcfg : StreamCfg :=
  { bw_hz := 500000, fs_hz := 3000000, lo_hz := 2500000000,
    gain := 50, rfport := "A_BALANCED" }

/-- The interaction trace of `cfg_ad9361_streaming_ch` on the RX success
path: `modeRead` and `gainRead` are the values the two read-backs return
(they only feed the diagnostic line). -/
def cfgRxOps (cfg : StreamCfg) (modeRead : String) (gainRead : ℤ) : List CfgOp :=
  [.wrStrOp "rf_port_select" cfg.rfport,
   .wrLLOp "rf_bandwidth" cfg.bw_hz,
   .wrLLOp "sampling_frequency" cfg.fs_hz,
   .wrStrOp "gain_control_mode" "manual",
   .rdStrOp "gain_control_mode",
   .wrLLOp "hardwaregain" cfg.gain,
   .rdLLOp "hardwaregain",
   .logLine ("* RX gain is " ++ toString gainRead ++ ", mode is " ++ modeRead),
   .wrLLOp "frequency" cfg.lo_hz]

/-! ## Generic buffer traversal (lines 324, 355, 373)

All three streaming loops share the header
`for (p_dat = iio_buffer_first(...); p_dat < p_end; p_dat += p_inc)`
with `p_inc = iio_buffer_step(buf)` and `p_end = iio_buffer_end(buf)`. -/

/-- The addresses such a loop touches: start at `first`, advance by the
reported `step`, stop at the first address not below `endp`. -/
def bufAddrs (step : ℕ) (endp : ℤ) (first : ℤ) : List ℤ :=
  if _h : first < endp ∧ 0 < step then
    first :: bufAddrs step endp (first + step)
  else []
termination_by (endp - first).toNat
decreasing_by omega

/-! ## Magnitude / phase CSV rows (lines 373-381) -/

/-- The magnitude column: `sqrt((i*i)+(q*q))` (integer arithmetic inside,
then converted to double). -/
noncomputable def magnitude (i q : ℤ) : ℝ :=
  Real.sqrt ((i * i + q * q : ℤ) : ℝ)

/-- The phase-in-degrees formula `(180/M_PI)*atan(q/i)` over real
arguments. -/
noncomputable def phaseDegFun (x q : ℝ) : ℝ :=
  (180 / Real.pi) * Real.arctan (q / x)

/-- The phase column for an integer sample pair. -/
noncomputable def phaseDeg (i q : ℤ) : ℝ := phaseDegFun (i : ℝ) (q : ℝ)

/-- One output.csv row: I, Q, magnitude, phase in degrees. -/
noncomputable def csvRow (p : ℤ × ℤ) : ℤ × ℤ × ℝ × ℝ :=
  (p.1, p.2, magnitude p.1 p.2, phaseDeg p.1 p.2)

/-- What `%.4f` prints, as the integer of ten-thousandths (rounded). -/
noncomputable def fmt4 (x : ℝ) : ℤ := round (x * 10000)

/-- The rows of output.csv produced from a complete receive outcome. -/
noncomputable def outputRows (o : RxOutcome) : List (ℤ × ℤ × ℝ × ℝ) :=
  o.captured.map csvRow

/-! ## Buffer creation phase (lines 288-300) -/

/-- Arguments of one `iio_device_create_buffer` call. -/
structure BufSpec where
  samplesCount : ℕ
  cyclic : Bool
deriving DecidableEq

/-- The RX buffer request. -/
def rxBufSpec : BufSpec := ⟨rxBufSamples, false⟩

/-- The TX buffer request. -/
def txBufSpec : BufSpec := ⟨txBufSamples, false⟩

/-- The buffer creation phase: `rxOk`/`txOk` tell whether each creation
returned non-null; a null result routes through `shutdown()` (`none`). -/
def bufferPhase (rxOk txOk : Bool) : Option (BufSpec × BufSpec) :=
  if rxOk then (if txOk then some (rxBufSpec, txBufSpec) else none) else none

/-- The per-call results of a run of refill calls, as a list: entry `j` is
the data of refill call `base + j`. -/
def refillSlice (refill : ℕ → RefillRes) : ℕ → ℕ → List (List (ℤ × ℤ))
  | _, 0 => []
  | base, n + 1 => (refill base).data :: refillSlice refill (base + 1) n

/-- Formula of claim C1 for the stored Q sample (stated from the claim's
words, to be compared against the code's fill loop):
`round(48 * cos(2*pi*50000*t_k)) * 16` with the low 4 bits cleared, where
`t_k = k/3000000 + 1/3000000`. -/
noncomputable def claimQ (k : ℕ) : ℤ :=
  and0xFFF0
    (round ((48:ℝ) * Real.cos (2 * Real.pi * 50000 * ((k:ℝ)/3000000 + 1/3000000))) * 16)

/-! ## Helper lemmas -/

theorem cos_pi30_bounds :
    (0.99451 : ℝ) ≤ Real.cos (Real.pi / 30) ∧ Real.cos (Real.pi / 30) ≤ 0.994524 := by
  have hpi_lo : (3.1415 : ℝ) < Real.pi := Real.pi_gt_d4
  have hpi_hi : Real.pi < 3.1416 := Real.pi_lt_d4
  set x : ℝ := Real.pi / 30 with hx
  have hx_lo : (0.104716 : ℝ) ≤ x := by rw [hx]; norm_num; linarith
  have hx_hi : x ≤ 0.10472 := by rw [hx]; norm_num; linarith
  have hx_abs : |x| ≤ 1 := by rw [abs_of_nonneg (by linarith)]; linarith
  have hb := Real.cos_bound hx_abs
  rw [abs_of_nonneg (by linarith : (0:ℝ) ≤ x)] at hb
  have hx2_hi : x ^ 2 ≤ 0.01096663 := by nlinarith
  have hx2_lo : (0.0109654 : ℝ) ≤ x ^ 2 := by nlinarith
  have hx4_hi : x ^ 4 ≤ 0.00012027 := by nlinarith
  have habs := abs_le.1 hb
  constructor
  · nlinarith [habs.1]
  · nlinarith [habs.2]

theorem floor_768cos : ⌊(48:ℝ) * Real.cos (Real.pi / 30) * 16⌋ = 763 := by
  obtain ⟨hlo, hhi⟩ := cos_pi30_bounds
  rw [Int.floor_eq_iff]
  constructor
  · push_cast; nlinarith
  · push_cast; nlinarith

theorem round_48cos : round ((48:ℝ) * Real.cos (Real.pi / 30)) = 48 := by
  obtain ⟨hlo, hhi⟩ := cos_pi30_bounds
  rw [round_eq, Int.floor_eq_iff]
  constructor
  · push_cast; nlinarith
  · push_cast; nlinarith

theorem phase_discontinuous_at_zero :
    ¬ ContinuousAt (fun x : ℝ => phaseDegFun x 4) 0 := by
  intro hcont
  have h0 : phaseDegFun 0 4 = 0 := by
    unfold phaseDegFun
    simp
  rw [Metric.continuousAt_iff] at hcont
  obtain ⟨δ, hδ, hball⟩ := hcont 45 (by norm_num)
  have hx0pos : 0 < min (δ / 2) 1 := lt_min (by linarith) one_pos
  have hx0le1 : min (δ / 2) 1 ≤ 1 := min_le_right _ _
  have hdist : dist (min (δ / 2) 1) (0:ℝ) < δ := by
    rw [Real.dist_eq, sub_zero, abs_of_pos hx0pos]
    calc min (δ / 2) 1 ≤ δ / 2 := min_le_left _ _
    _ < δ := by linarith
  have hb := hball hdist
  rw [h0] at hb
  have h41 : (1:ℝ) ≤ 4 / min (δ / 2) 1 := by
    rw [le_div_iff₀ hx0pos]
    linarith
  have harct : Real.pi / 4 ≤ Real.arctan (4 / min (δ / 2) 1) := by
    rw [← Real.arctan_one]
    exact Real.arctan_strictMono.monotone h41
  have hfge : (45:ℝ) ≤ phaseDegFun (min (δ / 2) 1) 4 := by
    unfold phaseDegFun
    have hπ : 0 < Real.pi := Real.pi_pos
    calc (45:ℝ) = (180 / Real.pi) * (Real.pi / 4) := by field_simp; norm_num
    _ ≤ (180 / Real.pi) * Real.arctan (4 / min (δ / 2) 1) := by
      apply mul_le_mul_of_nonneg_left harct
      positivity
  rw [Real.dist_eq, sub_zero, abs_of_nonneg (by linarith)] at hb
  linarith

theorem and0xFFF0_emod16 (v : ℤ) : and0xFFF0 v % 16 = 0 := by
  unfold and0xFFF0 ofBits16
  have hmod : (toBits16 v &&& 65520) % 16 = 0 := by
    rw [show (16:ℕ) = 2 ^ 4 by norm_num, ← Nat.and_pow_two_sub_one_eq_mod,
      show ((2:ℕ) ^ 4 - 1) = 15 by norm_num, Nat.land_assoc,
      show (65520 &&& 15 : ℕ) = 0 by decide, Nat.and_zero]
  have hcast : ((toBits16 v &&& 65520 : ℕ) : ℤ) % 16 = 0 := by
    exact_mod_cast congrArg (Nat.cast : ℕ → ℤ) hmod
  split <;> omega

theorem refillSlice_length (refill : ℕ → RefillRes) :
    ∀ (n base : ℕ), (refillSlice refill base n).length = n := by
  intro n
  induction n with
  | zero => intro base; rfl
  | succ n ih => intro base; simp [refillSlice, ih]

theorem refillSlice_flatten_length (refill : ℕ → RefillRes) (m : ℕ)
    (hm : ∀ k, (refill k).data.length = m) :
    ∀ (n base : ℕ), ((refillSlice refill base n).flatten).length = n * m := by
  intro n
  induction n with
  | zero => intro base; simp [refillSlice]
  | succ n ih =>
    intro base
    simp only [refillSlice, List.flatten_cons, List.length_append, ih, hm]
    ring

theorem rxLoop_ok (refill : ℕ → RefillRes) (record : Bool) :
    ∀ (n base nrx : ℕ) (acc : List (ℤ × ℤ)),
      (∀ j, j < n → 0 ≤ (refill (base + j)).nbytes) →
      rxLoop refill record base n nrx acc =
        (n, some (nrx + ((refillSlice refill base n).map List.length).sum,
          acc ++ (if record then (refillSlice refill base n).flatten else []))) := by
  intro n
  induction n with
  | zero =>
    intro base nrx acc _
    cases record <;> simp [rxLoop, refillSlice]
  | succ n ih =>
    intro base nrx acc h
    have h0 : 0 ≤ (refill base).nbytes := by simpa using h 0 n.succ_pos
    have hrec : ∀ j, j < n → 0 ≤ (refill (base + 1 + j)).nbytes := by
      intro j hj
      rw [show base + 1 + j = base + (j + 1) by omega]
      exact h (j + 1) (by omega)
    simp only [rxLoop, if_neg (not_lt.2 h0)]
    rw [ih (base + 1) (nrx + (refill base).data.length)
      (acc ++ (if record then (refill base).data else [])) hrec]
    cases record <;> simp [refillSlice, List.append_assoc] <;> omega

theorem rxSection_ok (refill : ℕ → RefillRes)
    (h : ∀ j, j < 42 → 0 ≤ (refill j).nbytes) :
    rxSection refill =
      some { warmCalls := 2,
             dumped := ((refillSlice refill 0 2).map List.length).sum,
             afterReset := 0,
             capCalls := 40,
             received := ((refillSlice refill 2 40).map List.length).sum,
             finalCounter := ((refillSlice refill 2 40).map List.length).sum,
             captured := (refillSlice refill 2 40).flatten } := by
  have hw : ∀ j, j < 2 → 0 ≤ (refill (0 + j)).nbytes := by
    intro j hj; simpa using h j (by omega)
  have hc : ∀ j, j < 40 → 0 ≤ (refill (2 + j)).nbytes := by
    intro j hj; exact h (2 + j) (by omega)
  unfold rxSection
  rw [rxLoop_ok refill false 2 0 0 [] hw, rxLoop_ok refill true 40 2 0 [] hc]
  simp [assembleRx]

theorem rxLoopS_snd (sig : ℕ → Bool) (refill : ℕ → RefillRes) (record : Bool) :
    ∀ (n base : ℕ) (stop : Bool) (nrx : ℕ) (acc : List (ℤ × ℤ)),
      (rxLoopS sig refill record base n stop nrx acc).2 =
        rxLoop refill record base n nrx acc := by
  intro n
  induction n with
  | zero => intro base stop nrx acc; rfl
  | succ n ih =>
    intro base stop nrx acc
    simp only [rxLoopS, rxLoop]
    split
    · rfl
    · simp [ih]

theorem rxSectionS_snd (sig : ℕ → Bool) (refill : ℕ → RefillRes) :
    (rxSectionS sig refill).2 = rxSection refill := by
  unfold rxSectionS rxSection
  dsimp only
  rw [rxLoopS_snd, rxLoopS_snd]

theorem txFill_length (fs freq ampl : ℝ) :
    ∀ (n : ℕ) (t : ℝ), (txFill fs freq ampl n t).length = n := by
  intro n
  induction n with
  | zero => intro t; rfl
  | succ n ih => intro t; simp [txFill, ih]

theorem txFill_getElem (fs freq ampl : ℝ) :
    ∀ (n : ℕ) (t : ℝ) (k : ℕ), k < n →
      (txFill fs freq ampl n t)[k]? =
        some (txSampleAt freq ampl (t + k * (1 / fs))) := by
  intro n
  induction n with
  | zero => intro t k hk; omega
  | succ n ih =>
    intro t k hk
    cases k with
    | zero => simp [txFill]
    | succ k =>
      have := ih (t + 1 / fs) k (by omega)
      simp only [txFill, List.getElem?_cons_succ, this]
      congr 2
      push_cast
      ring

theorem bufAddrs_props (step : ℕ) (endp : ℤ) :
    ∀ (fuel : ℕ) (first : ℤ), (endp - first).toNat ≤ fuel →
      (∀ a ∈ bufAddrs step endp first, a < endp) ∧
      ∃ n : ℕ, bufAddrs step endp first =
        (List.range n).map (fun j : ℕ => first + (j : ℤ) * (step : ℤ)) := by
  intro fuel
  induction fuel with
  | zero =>
    intro first hf
    have : ¬ (first < endp ∧ 0 < step) := by
      intro hcon; omega
    rw [bufAddrs, dif_neg this]
    exact ⟨by simp, 0, by simp⟩
  | succ fuel ih =>
    intro first hf
    rw [bufAddrs]
    by_cases hc : first < endp ∧ 0 < step
    · rw [dif_pos hc]
      have hfuel : (endp - (first + step)).toNat ≤ fuel := by omega
      obtain ⟨hmem, n, hshape⟩ := ih (first + step) hfuel
      refine ⟨?_, n + 1, ?_⟩
      · intro a ha
        rcases List.mem_cons.1 ha with rfl | ha
        · exact hc.1
        · exact hmem a ha
      · rw [hshape, List.range_succ_eq_map, List.map_cons, List.map_map]
        refine List.cons_eq_cons.mpr ⟨by push_cast; ring, ?_⟩
        apply List.map_congr_left
        intro j _
        simp only [Function.comp_apply]
        push_cast
        ring
    · rw [dif_neg hc]
      exact ⟨by simp, 0, by simp⟩

/-! ## Claim theorems -/

/-- Claim C4: from any resource-acquisition state, the shutdown sequencer
releases exactly the acquired resources, in the strict order RX buffer,
TX buffer, the four streaming channels, then the context; every step is
guarded by its null check, so no unacquired resource is released, none is
released twice, and the call always completes. -/
theorem shutdown_sequencer_safe :
    ∀ r : Resources,
      shutdownActs r = shutdownOrder.filter (fun a => holdsFor r a) ∧
      (shutdownActs r).Sublist shutdownOrder ∧
      (∀ a : Act, a ∈ shutdownActs r ↔ holdsFor r a = true) ∧
      (∀ a : Act, (shutdownActs r).count a ≤ 1) := by
  intro r
  rcases r with ⟨b1, b2, b3, b4, b5, b6, b7⟩
  cases b1 <;> cases b2 <;> cases b3 <;> cases b4 <;> cases b5 <;> cases b6 <;>
    cases b7 <;> decide

/-- Claim C6: every attribute wrapper performs exactly one underlying
library call (never a retry); a negative result produces the diagnostic
naming the attribute and the numeric error code and routes through the
shutdown sequencer, while a non-negative result continues unchanged. -/
theorem attr_failfast :
    ∀ (stream : ℕ → ℤ) (k : ℕ) (what : String),
      (wr_ch_lli stream k what = (errchk (stream k) what, k + 1) ∧
       rd_ch_lli stream k what = (errchk (stream k) what, k + 1) ∧
       wr_ch_str stream k what = (errchk (stream k) what, k + 1) ∧
       rd_ch_str stream k what = (errchk (stream k) what, k + 1)) ∧
      (∀ v : ℤ, v < 0 → errchk v what = .failStop v what) ∧
      (∀ v : ℤ, 0 ≤ v → errchk v what = .ok) ∧
      (∀ v : ℤ, ∃ pre mid post : String,
        diagMsg v what = pre ++ toString v ++ mid ++ what ++ post) := by
  intro stream k what
  refine ⟨⟨rfl, rfl, rfl, rfl⟩, ?_, ?_, ?_⟩
  · intro v hv
    simp [errchk, hv]
  · intro v hv
    simp [errchk, not_lt.2 hv]
  · intro v
    exact ⟨"Error ", " writing to channel \"",
      "\"\nvalue may not be supported.\n", rfl⟩

/-- Claim C7: in the RX configuration trace, `gain_control_mode` is written
to "manual" strictly before `hardwaregain` is written; each of the two
read-backs comes after its write; the read-back values appear only in the
diagnostic log line and have no effect on the rest of the trace. -/
theorem rx_gain_config_order :
    ∀ (cfg : StreamCfg) (modeRead : String) (gainRead : ℤ),
      ((cfgRxOps cfg modeRead gainRead)[3]? =
          some (.wrStrOp "gain_control_mode" "manual") ∧
       (cfgRxOps cfg modeRead gainRead)[5]? =
          some (.wrLLOp "hardwaregain" cfg.gain) ∧
       (3:ℕ) < 5) ∧
      ((cfgRxOps cfg modeRead gainRead)[4]? =
          some (.rdStrOp "gain_control_mode") ∧
       (cfgRxOps cfg modeRead gainRead)[6]? =
          some (.rdLLOp "hardwaregain") ∧
       (3:ℕ) < 4 ∧ (5:ℕ) < 6) ∧
      ((cfgRxOps cfg modeRead gainRead)[7]? =
          some (.logLine ("* RX gain is " ++ toString gainRead ++
            ", mode is " ++ modeRead))) ∧
      (∀ m1 m2 : String, ∀ g1 g2 : ℤ,
        (cfgRxOps cfg m1 g1).filter (fun op => !op.isLogLine) =
          (cfgRxOps cfg m2 g2).filter (fun op => !op.isLogLine)) := by
  intro cfg modeRead gainRead
  refine ⟨⟨rfl, rfl, by omega⟩, ⟨rfl, rfl, by omega, by omega⟩, rfl, ?_⟩
  intro m1 m2 g1 g2
  rfl

/-- Claim C9: the pointer traversal shared by the fill and drain loops
visits only addresses of the form `first + j * step` (the increment is the
step the buffer reports, never a constant) and every visited address lies
strictly below the buffer's end pointer. -/
theorem buffer_traversal_inv (step : ℕ) (endp first : ℤ) :
    (∀ a ∈ bufAddrs step endp first, a < endp) ∧
    ∃ n : ℕ, bufAddrs step endp first =
      (List.range n).map (fun j : ℕ => first + (j : ℤ) * (step : ℤ)) :=
  bufAddrs_props step endp (endp - first).toNat first le_rfl

/-- Claim C2: in every complete run, exactly 2 warm-up refills are
performed with all elements discarded and exactly 40 capture refills with
every element logged, whatever the buffer sizes; with a uniform refill
size m the recorded sample count is 40 * m. -/
theorem rx_phase_counts (refill : ℕ → RefillRes)
    (h : ∀ j, j < 42 → 0 ≤ (refill j).nbytes) :
    ∃ o : RxOutcome, rxSection refill = some o ∧
      o.warmCalls = 2 ∧ o.capCalls = 40 ∧
      o.captured = (refillSlice refill 2 40).flatten ∧
      (∀ m : ℕ, (∀ k, (refill k).data.length = m) →
        o.captured.length = 40 * m) := by
  refine ⟨_, rxSection_ok refill h, rfl, rfl, rfl, ?_⟩
  intro m hm
  exact refillSlice_flatten_length refill m hm 40 2

/-- Witness for C2 at the oracle whose every refill succeeds with one
sample. -/
theorem rx_phase_counts_witness :
    (∀ j, j < 42 → 0 ≤ ((fun _ : ℕ => RefillRes.mk 0 [((5:ℤ), (6:ℤ))]) j).nbytes) ∧
    (∃ o : RxOutcome,
      rxSection (fun _ : ℕ => RefillRes.mk 0 [((5:ℤ), (6:ℤ))]) = some o ∧
      o.warmCalls = 2 ∧ o.capCalls = 40 ∧
      o.captured = (refillSlice (fun _ : ℕ => RefillRes.mk 0 [((5:ℤ), (6:ℤ))]) 2 40).flatten ∧
      (∀ m : ℕ, (∀ k, ((fun _ : ℕ => RefillRes.mk 0 [((5:ℤ), (6:ℤ))]) k).data.length = m) →
        o.captured.length = 40 * m)) :=
  ⟨fun _ _ => le_refl 0, rx_phase_counts _ (fun _ _ => le_refl 0)⟩

/-- Claim C8 (amended): after the warm-up phase the sample counter is
reported and reset to zero, while after the capture phase it is reported
but NOT reset (the program goes straight to shutdown with the counter
still holding the capture total). -/
theorem sample_counter_reports (refill : ℕ → RefillRes) (o : RxOutcome)
    (h : rxSection refill = some o) :
    o.afterReset = 0 ∧ o.finalCounter = o.received := by
  unfold rxSection assembleRx at h
  rcases e1 : rxLoop refill false 0 2 0 [] with ⟨c1, r1⟩
  rw [e1] at h
  rcases r1 with _ | ⟨n1, d1⟩
  · simp at h
  · rcases e2 : rxLoop refill true 2 40 0 [] with ⟨c2, r2⟩
    rw [e2] at h
    rcases r2 with _ | ⟨n2, d2⟩
    · simp at h
    · obtain rfl : RxOutcome.mk c1 n1 0 c2 n2 n2 d2 = o := by
        simpa using h
      exact ⟨rfl, rfl⟩

/-- Witness for C8 at a concrete successful run. -/
theorem sample_counter_reports_witness :
    rxSection (fun _ : ℕ => RefillRes.mk 0 [((1:ℤ), (2:ℤ))]) =
      some ⟨2, 2, 0, 40, 40, 40, List.replicate 40 ((1:ℤ), (2:ℤ))⟩ ∧
    ((⟨2, 2, 0, 40, 40, 40, List.replicate 40 ((1:ℤ), (2:ℤ))⟩ : RxOutcome).afterReset = 0 ∧
     (⟨2, 2, 0, 40, 40, 40, List.replicate 40 ((1:ℤ), (2:ℤ))⟩ : RxOutcome).finalCounter =
       (⟨2, 2, 0, 40, 40, 40, List.replicate 40 ((1:ℤ), (2:ℤ))⟩ : RxOutcome).received) :=
  ⟨by decide, sample_counter_reports (fun _ : ℕ => RefillRes.mk 0 [((1:ℤ), (2:ℤ))]) _ (by decide)⟩

/-- Counterexample to C8 as stated: in a run whose every refill yields one
sample, the capture phase reports 40 received samples and the counter then
still holds 40 — it is not reset to zero after the second phase. -/
theorem sample_counter_reset_cex :
    (rxSection (fun _ : ℕ => RefillRes.mk 0 [((1:ℤ), (2:ℤ))])).map
        (fun o => (o.dumped, o.afterReset, o.received, o.finalCounter)) =
      some (2, 0, 40, 40) ∧ (40 : ℕ) ≠ 0 :=
  ⟨by decide, by decide⟩

/-- Claim C10: the RX buffer is requested with 256 samples and the TX
buffer with 1024 = 4 * 256 samples, both non-cyclic; a null creation
result routes through the shutdown sequencer; the fill pass generates
exactly 1024 sample pairs, and with full 256-sample refills the capture
phase records 40 * 256 = 10240 samples. -/
theorem buffer_sizing :
    bufferPhase false false = none ∧ bufferPhase false true = none ∧
    bufferPhase true false = none ∧
    bufferPhase true true = some (⟨256, false⟩, ⟨1024, false⟩) ∧
    txBufSpec.samplesCount = 4 * rxBufSpec.samplesCount ∧
    txFillMain.length = 1024 ∧
    (∀ refill : ℕ → RefillRes,
      (∀ k, 0 ≤ (refill k).nbytes ∧ (refill k).data.length = 256) →
      ∃ o : RxOutcome, rxSection refill = some o ∧
        o.captured.length = 40 * 256 ∧ (40 * 256 : ℕ) = 10240) := by
  refine ⟨rfl, rfl, rfl, rfl, rfl, ?_, ?_⟩
  · unfold txFillMain
    rw [txFill_length]
    rfl
  · intro refill h
    refine ⟨_, rxSection_ok refill (fun j _ => (h j).1), ?_, rfl⟩
    exact refillSlice_flatten_length refill 256 (fun k => (h k).2) 40 2

/-- Witness for C10 at an oracle returning full 256-sample refills. -/
theorem buffer_sizing_witness :
    ∃ o : RxOutcome,
      rxSection (fun _ : ℕ => RefillRes.mk 0 (List.replicate 256 ((1:ℤ), (2:ℤ)))) = some o ∧
      o.captured.length = 40 * 256 ∧ (40 * 256 : ℕ) = 10240 :=
  buffer_sizing.2.2.2.2.2.2 _ (fun _ => ⟨le_refl 0, List.length_replicate 256 ((1:ℤ), (2:ℤ))⟩)

/-- Claim C5: the signal handler only sets the stop flag, and the stop
flag is read nowhere in the streaming loops, so two runs with the same
hardware behaviour that differ only in whether and when signals are
delivered perform the same warm-up and capture iterations and write the
same input.csv (TX fill log) and output.csv (capture log) contents. -/
theorem stop_flag_noninterference :
    (∀ st : Bool × Option RxOutcome, handleSig st = (true, st.2)) ∧
    (∀ (sig1 sig2 : ℕ → Bool) (refill : ℕ → RefillRes),
      (txFillMain, (rxSectionS sig1 refill).2) =
        (txFillMain, (rxSectionS sig2 refill).2)) := by
  refine ⟨fun st => rfl, fun sig1 sig2 refill => ?_⟩
  rw [rxSectionS_snd, rxSectionS_snd]

/-- Claim C3: every captured sample yields exactly one output.csv row
(I, Q, magnitude, phase in degrees) with magnitude sqrt(I^2+Q^2) and phase
(180/pi)*atan(Q/I); I=3, Q=4 gives magnitude 5 (printed 5.0000 by %.4f);
and the phase formula is discontinuous at I = 0. -/
theorem csv_row_shape :
    ∀ o : RxOutcome,
      ((outputRows o).length = o.captured.length ∧
       ∀ k : ℕ, (outputRows o)[k]? = (o.captured[k]?).map csvRow) ∧
      (∀ i q : ℤ, csvRow (i, q) = (i, q, magnitude i q, phaseDeg i q)) ∧
      magnitude 3 4 = 5 ∧ fmt4 (magnitude 3 4) = 50000 ∧
      ¬ ContinuousAt (fun x : ℝ => phaseDegFun x 4) 0 := by
  intro o
  have hmag : magnitude 3 4 = 5 := by
    unfold magnitude
    rw [show ((3*3+4*4 : ℤ) : ℝ) = 25 by norm_num,
      show (25:ℝ) = 5 ^ 2 by norm_num, Real.sqrt_sq (by norm_num : (0:ℝ) ≤ 5)]
  refine ⟨⟨by simp [outputRows], fun k => List.getElem?_map csvRow o.captured k⟩,
    fun i q => rfl, hmag, ?_, phase_discontinuous_at_zero⟩
  unfold fmt4
  rw [hmag, show ((5:ℝ) * 10000) = ((50000:ℤ) : ℝ) by norm_num, round_intCast]

/-- Claim C1 (amended): for every element k of the 1024-element TX buffer
the stored I sample is 0 and the stored Q sample is
trunc(48 * cos(2*pi*50000 * t_k) * 16) with the low 4 bits cleared, where
t_k = k/3000000 + 1/3000000 and trunc is the C double-to-short truncation
toward zero (the code truncates the scaled value; it does not round the
amplitude before scaling); every stored sample has its low 4 bits zero. -/
theorem tx_fill_formula :
    ∀ k : ℕ, k < 1024 →
      txFillMain[k]? = some (0, and0xFFF0 (truncToInt
        ((48:ℝ) * Real.cos (toneFreq * ((k:ℝ)/3000000 + 1/3000000)) * 16))) ∧
      and0xFFF0 (truncToInt
        ((48:ℝ) * Real.cos (toneFreq * ((k:ℝ)/3000000 + 1/3000000)) * 16)) % 16 = 0 := by
  intro k hk
  refine ⟨?_, and0xFFF0_emod16 _⟩
  unfold txFillMain
  rw [txFill_getElem 3000000 toneFreq 48 txBufSamples (1/3000000) k
    (by simpa [txBufSamples] using hk)]
  unfold txSampleAt
  rw [show and0xFFF0 0 = 0 by decide,
    show (1:ℝ)/3000000 + (k:ℝ) * (1/3000000) = (k:ℝ)/3000000 + 1/3000000 by ring]

/-- Witness for C1 at k = 0. -/
theorem tx_fill_formula_witness :
    (0:ℕ) < 1024 ∧
    (txFillMain[0]? = some (0, and0xFFF0 (truncToInt
        ((48:ℝ) * Real.cos (toneFreq * (((0:ℕ):ℝ)/3000000 + 1/3000000)) * 16))) ∧
      and0xFFF0 (truncToInt
        ((48:ℝ) * Real.cos (toneFreq * (((0:ℕ):ℝ)/3000000 + 1/3000000)) * 16)) % 16 = 0) :=
  ⟨by decide, tx_fill_formula 0 (by decide)⟩

/-- Counterexample to C1 as stated: at k = 0 the code stores Q = 752
(truncate 48*cos(pi/30)*16 = 763 toward zero, then clear the low 4 bits)
while the claim formula round(48*cos(pi/30))*16 gives 768. -/
theorem tx_fill_round_cex :
    txFillMain[0]? = some (0, 752) ∧ claimQ 0 = 768 ∧ ((752:ℤ) ≠ 768) := by
  refine ⟨?_, ?_, by decide⟩
  · unfold txFillMain
    rw [txFill_getElem 3000000 toneFreq 48 txBufSamples (1/3000000) 0
      (by norm_num [txBufSamples])]
    unfold txSampleAt
    rw [show toneFreq * ((1:ℝ)/3000000 + ((0:ℕ):ℝ) * (1/3000000)) = Real.pi / 30 by
      unfold toneFreq; push_cast; ring]
    have hpos : (0:ℝ) ≤ 48 * Real.cos (Real.pi/30) * 16 := by
      nlinarith [cos_pi30_bounds.1]
    rw [show truncToInt ((48:ℝ) * Real.cos (Real.pi/30) * 16) = 763 by
      unfold truncToInt; rw [if_pos hpos, floor_768cos]]
    decide
  · unfold claimQ
    rw [show 2 * Real.pi * 50000 * (((0:ℕ):ℝ)/3000000 + 1/3000000) = Real.pi / 30 by
      push_cast; ring, round_48cos]
    decide

end AD9361
